import Mathlib

/-!
Shallow embedding of the immich library reconciliation pipeline
(`LibraryService` in `src/server/src/domain/album/dto/get-albums.dto.ts`:
`refresh`, `handleRefreshAsset`, `handleOfflineAsset`) together with the
parts of its environment (filesystem stat, mime lookup, asset repository,
job queue) that the service interacts with.

JavaScript `Date` objects are modelled with an explicit object identity
(`ref`) next to their time value (`val`), because the source compares two
`Date` objects with the strict inequality operator, which in JavaScript
compares object identity, not time values.
-/

namespace Immich

/-- Model of a JavaScript `Date` object: `ref` is the object identity
(two separately allocated `Date`s have different `ref`s even when they
denote the same instant), `val` is the time value in epoch milliseconds. -/
structure JSDate where
  ref : Nat
  val : Int
deriving DecidableEq, Repr

/-- JavaScript strict inequality on two `Date` objects compares object
identity: it is false only when both operands are the same object. -/
def jsStrictNeq (a b : JSDate) : Bool :=
  a.ref != b.ref

/-- Library type enum from `@app/infra/entities`. -/
inductive LibraryType where
  | IMPORT
  | UPLOAD
deriving DecidableEq, Repr

/-- The fields of `LibraryEntity` used by the service. -/
structure Library where
  id : String
  type : LibraryType
  importPaths : List String
deriving DecidableEq, Repr

/-- The fields of `AssetEntity` that the service reads or writes.
The `type` field is a plain string because the source derives it by
`mimeType.split(slash)[0].toUpperCase() as AssetType`, an unchecked cast. -/
structure Asset where
  id : Nat
  ownerId : String
  libraryId : String
  originalPath : String
  checksum : String
  deviceAssetId : String
  type : String
  fileCreatedAt : JSDate
  fileModifiedAt : JSDate
  originalFileName : String
  sidecarPath : Option String
  isReadOnly : Bool
  isOffline : Bool
deriving DecidableEq, Repr

/-- `ILibraryJob`: payload of refresh / offline jobs. -/
structure ILibraryJob where
  assetPath : String
  ownerId : String
  libraryId : String
  forceRefresh : Bool
  emptyTrash : Bool
deriving DecidableEq, Repr

/-- A job handed to the job queue, by job name.  The metadata-extraction
and video-conversion payloads carry the id of the created asset. -/
inductive QueuedJob where
  | refreshFile (job : ILibraryJob)
  | offlineFile (job : ILibraryJob)
  | metadataExtraction (assetId : Nat)
  | videoConversion (assetId : Nat)
deriving DecidableEq, Repr

/-- Modelled from the spec: the persisted asset catalog (external
collaborator of section 6) is a list of asset records; the accessor
operations below realise its CRUD contract. -/
abbrev Catalog := List Asset

/-- Modelled from the spec: `getAssetByLibraryAndPath(libraryId, path)`
returns the asset of the library whose `originalPath` is the given path,
or none. -/
def getByLibraryIdAndOriginalPath (cat : Catalog) (libraryId p : String) :
    Option Asset :=
  cat.find? (fun a => a.libraryId == libraryId && a.originalPath == p)

/-- Modelled from the spec: `updateAsset(id, partialFields)` with the
partial field `isOffline`; every record with the given id gets the flag. -/
def updateIsOffline (cat : Catalog) (id : Nat) (flag : Bool) : Catalog :=
  cat.map (fun a => if a.id == id then { a with isOffline := flag } else a)

/-- Modelled from the spec: `createAsset(fields)` inserts a new record
(distinct from `updateAsset` in the section 6 interface). -/
def createAsset (cat : Catalog) (a : Asset) : Catalog :=
  cat ++ [a]

/-- Modelled from the spec: `deleteAsset(id)` removes the record with the
given id (hard delete). -/
def removeAsset (cat : Catalog) (id : Nat) : Catalog :=
  cat.filter (fun a => a.id != id)

/-- The fields of `fs.Stats` used by the ingest worker. -/
structure Stats where
  mtime : JSDate
  ctime : JSDate
  size : Nat
deriving DecidableEq, Repr

/-- External inputs of one `handleRefreshAsset` invocation: the outcome of
`fs.promises.stat` (none models the throwing case), readability of the
`.xmp` sidecar, the result of `mime.lookup` on the job path, the verdict
of the supported-asset allow-list `mimeTypes.isAsset` (modelled from the
spec: the allow-list itself lives outside the given sources), the digest
returned by `cryptoRepository.hashFile`, and the id the repository assigns
to a created asset. -/
structure FsEnv where
  stat : Option Stats
  xmpReadable : Bool
  mimeLookup : Option String
  isAsset : Bool
  hash : String
  nextAssetId : Nat
deriving DecidableEq, Repr

/-- Observable side effects of one worker invocation, in program order. -/
inductive Effect where
  | updateOffline (id : Nat) (flag : Bool)
  | hashFile (p : String)
  | create (a : Asset)
  | remove (id : Nat)
  | queue (j : QueuedJob)
deriving DecidableEq, Repr

/-- Errors a worker can throw. -/
inductive WorkerError where
  | badRequest (msg : String)
  | unknownMime (p : String)
deriving DecidableEq, Repr

/-- Result of one worker invocation: final catalog, ordered effect trace,
and either the returned boolean or the thrown error. -/
structure WorkerRun where
  catalog : Catalog
  trace : List Effect
  result : Except WorkerError Bool
deriving Repr

/-- Split a character list at every occurrence of the separator, keeping
empty segments, like `String.split` of the source languages. -/
def splitOnChar (c : Char) : List Char → List (List Char)
  | [] => [[]]
  | x :: xs =>
      match splitOnChar c xs with
      | [] => if x == c then [[], []] else [[x]]
      | y :: ys => if x == c then [] :: y :: ys else (x :: y) :: ys

/-- Rejoin segments with a dot between them. -/
def joinDots : List (List Char) → List Char
  | [] => []
  | [x] => x
  | x :: xs => x ++ ('.' :: joinDots xs)

/-- Node `path.basename`: the final path component. -/
def basename (p : String) : String :=
  String.mk ((splitOnChar '/' p.toList).getLastD p.toList)

/-- Node `path.parse(p).name`: the basename without its final extension
(a leading dot alone does not count as an extension separator). -/
def parseName (p : String) : String :=
  let b := (splitOnChar '/' p.toList).getLastD p.toList
  match splitOnChar '.' b with
  | [] => String.mk b
  | [_] => String.mk b
  | [] :: rest =>
      if rest.length == 1 then String.mk b
      else String.mk ('.' :: joinDots rest.dropLast)
  | parts => String.mk (joinDots parts.dropLast)

/-- The `replace(whitespace, empty)` applied to the device asset id. -/
def stripWhitespace (s : String) : String :=
  String.mk (s.toList.filter (fun c => !c.isWhitespace))

/-- Coarse asset type derivation:
`mimeType.split(slash)[0].toUpperCase()`. -/
def assetTypeOf (mimeType : String) : String :=
  String.mk (((splitOnChar '/' mimeType.toList).headD []).map Char.toUpper)

/-- The import decision of `handleRefreshAsset`: import when force-refresh
was requested, when no asset exists yet, or when the stored `Date` object
is strictly-unequal to the fresh `Date` from stat (object identity). -/
def decideImport (existing : Option Asset) (force : Bool)
    (statMtime : JSDate) : Bool :=
  force ||
    (match existing with
     | none => true
     | some a => jsStrictNeq statMtime a.fileModifiedAt)

/-- The offline-flag clearing step: when an existing asset is marked
offline, clear the flag (the file is back). -/
def clearOfflineStep (cat : Catalog) (existing : Option Asset) :
    Catalog × List Effect :=
  match existing with
  | some a =>
      if a.isOffline then
        (updateIsOffline cat a.id false, [Effect.updateOffline a.id false])
      else (cat, [])
  | none => (cat, [])

/-- The import procedure of `handleRefreshAsset`, entered once the
decision table selects import: resolve mime, check the allow-list, hash
the file, build the record, create it, and enqueue follow-on jobs. -/
def importAsset (env : FsEnv) (stats : Stats) (cat : Catalog)
    (trace : List Effect) (job : ILibraryJob) : WorkerRun :=
  match env.mimeLookup with
  | none => ⟨cat, trace, .error (.unknownMime job.assetPath)⟩
  | some mimeType =>
      if env.isAsset = false then
        ⟨cat, trace, .error (.badRequest ("Unsupported file type " ++ mimeType))⟩
      else
        let addedAsset : Asset :=
          { id := env.nextAssetId
            ownerId := job.ownerId
            libraryId := job.libraryId
            originalPath := job.assetPath
            checksum := env.hash
            deviceAssetId :=
              stripWhitespace (basename job.assetPath ++ "-" ++ toString stats.size)
            type := assetTypeOf mimeType
            fileCreatedAt := stats.ctime
            fileModifiedAt := stats.mtime
            originalFileName := parseName job.assetPath
            sidecarPath :=
              if env.xmpReadable then some (job.assetPath ++ ".xmp") else none
            isReadOnly := true
            isOffline := false }
        let cat2 := createAsset cat addedAsset
        let trace2 := trace ++
          [Effect.hashFile job.assetPath, Effect.create addedAsset,
           Effect.queue (QueuedJob.metadataExtraction addedAsset.id)]
        if addedAsset.type == "VIDEO" then
          ⟨cat2, trace2 ++ [Effect.queue (QueuedJob.videoConversion addedAsset.id)],
           .ok true⟩
        else ⟨cat2, trace2, .ok true⟩

/-- `LibraryService.handleRefreshAsset`: look up the existing asset, stat
the file (failure marks the asset offline or fails the job), compute
the import decision, clear a stale offline flag, and either return early
or run the import procedure. -/
def handleRefreshAsset (env : FsEnv) (cat : Catalog) (job : ILibraryJob) :
    WorkerRun :=
  let existing := getByLibraryIdAndOriginalPath cat job.libraryId job.assetPath
  match env.stat with
  | none =>
      match existing with
      | some a =>
          ⟨updateIsOffline cat a.id true, [Effect.updateOffline a.id true],
           .ok true⟩
      | none => ⟨cat, [], .error (.badRequest "Cannot access file")⟩
  | some stats =>
      let doImport := decideImport existing job.forceRefresh stats.mtime
      let cleared := clearOfflineStep cat existing
      if doImport = false then ⟨cleared.1, cleared.2, .ok true⟩
      else importAsset env stats cleared.1 cleared.2 job

/-- `LibraryService.handleOfflineAsset`: require an existing asset; with
`emptyTrash` remove it, otherwise mark it offline. -/
def handleOfflineAsset (cat : Catalog) (job : ILibraryJob) : WorkerRun :=
  match getByLibraryIdAndOriginalPath cat job.libraryId job.assetPath with
  | none =>
      ⟨cat, [],
       .error (.badRequest ("Asset does not exist in database: " ++ job.assetPath))⟩
  | some a =>
      if job.emptyTrash then
        ⟨removeAsset cat a.id, [Effect.remove a.id], .ok true⟩
      else
        ⟨updateIsOffline cat a.id true, [Effect.updateOffline a.id true],
         .ok true⟩

/-- `ScanLibraryDto` (aliased `RefreshLibraryDto` in the service): both
flags optional, defaulted to false with the nullish-coalescing operator. -/
structure RefreshLibraryDto where
  forceRefresh : Option Bool
  emptyTrash : Option Bool
deriving DecidableEq, Repr

/-- Errors the refresh pass can raise. -/
inductive RefreshError where
  | internalServerError (msg : String)
  | crawlFailed
  | catalogFetchFailed
deriving DecidableEq, Repr

/-- Result of one refresh pass: the jobs queued, in order, and the
outcome. -/
structure RefreshRun where
  jobs : List QueuedJob
  result : Except RefreshError Unit
deriving Repr

/-- `LibraryService.refresh`: reject non-IMPORT libraries, crawl (the
crawler is an external input here: its outcome is passed in as an
`Except`, like the later catalog fetch), normalize the crawled paths,
queue one refresh job per crawled path, then fetch the library assets and
queue one offline job per normalized catalog path missing from the crawl.
`normalize` stands for node `path.normalize`. -/
def refresh (normalize : String → String) (ownerId libraryId : String)
    (library : Library) (dto : RefreshLibraryDto)
    (crawlResult : Except Unit (List String))
    (catalogResult : Except Unit (List Asset)) : RefreshRun :=
  if library.type ≠ LibraryType.IMPORT then
    { jobs := []
      result := .error (.internalServerError "Only imported libraries can be refreshed") }
  else
    match crawlResult with
    | .error _ => { jobs := [], result := .error .crawlFailed }
    | .ok rawPaths =>
        let crawledAssetPaths := rawPaths.map normalize
        let refreshJobs := crawledAssetPaths.map (fun p =>
          QueuedJob.refreshFile
            { assetPath := normalize p
              ownerId := ownerId
              libraryId := libraryId
              forceRefresh := dto.forceRefresh.getD false
              emptyTrash := dto.emptyTrash.getD false })
        match catalogResult with
        | .error _ => { jobs := refreshJobs, result := .error .catalogFetchFailed }
        | .ok assetsInLibrary =>
            let offlineAssets :=
              ((assetsInLibrary.map (fun a => a.originalPath)).map normalize).filter
                (fun p => !crawledAssetPaths.contains p)
            let offlineJobs := offlineAssets.map (fun p =>
              QueuedJob.offlineFile
                { assetPath := p
                  ownerId := ownerId
                  libraryId := libraryId
                  forceRefresh := false
                  emptyTrash := dto.emptyTrash.getD false })
            { jobs := refreshJobs ++ offlineJobs, result := .ok () }

/-- Number of catalog records of a library at a path. -/
def pathCount (cat : Catalog) (libraryId p : String) : Nat :=
  cat.countP (fun a => a.libraryId == libraryId && a.originalPath == p)

/-- Predicate: a queued refresh job for the given path. -/
def isRefreshFor (q : String) : QueuedJob → Bool
  | .refreshFile d => d.assetPath == q
  | _ => false

/-- Predicate: a queued offline job for the given path. -/
def isOfflineFor (q : String) : QueuedJob → Bool
  | .offlineFile d => d.assetPath == q
  | _ => false

/-- Predicate: an offline job of any path. -/
def isOfflineJob : QueuedJob → Bool
  | .offlineFile _ => true
  | _ => false

/-- Predicate: a queued metadata-extraction effect for the given asset. -/
def isQueueMeta (i : Nat) : Effect → Bool
  | .queue (.metadataExtraction j) => j == i
  | _ => false

/-- Predicate: a queued video-conversion effect for the given asset. -/
def isQueueVideo (i : Nat) : Effect → Bool
  | .queue (.videoConversion j) => j == i
  | _ => false

/-- Predicate: a create (asset upsert) effect. -/
def isCreate : Effect → Bool
  | .create _ => true
  | _ => false

/-- Decidable equality for `Except`, used to evaluate worker results on
concrete inputs. -/
instance instDecEqExcept {ε α : Type} [DecidableEq ε] [DecidableEq α] :
    DecidableEq (Except ε α) := fun x y =>
  match x, y with
  | .error a, .error b =>
      if h : a = b then .isTrue (h ▸ rfl)
      else .isFalse (fun hc => h (Except.error.inj hc))
  | .error _, .ok _ => .isFalse (fun hc => Except.noConfusion hc)
  | .ok _, .error _ => .isFalse (fun hc => Except.noConfusion hc)
  | .ok a, .ok b =>
      if h : a = b then .isTrue (h ▸ rfl)
      else .isFalse (fun hc => h (Except.ok.inj hc))

/-- An asset updated by `updateIsOffline` whose id matches carries the new
flag. -/
lemma isOffline_of_mem_updateIsOffline {cat : Catalog} {i : Nat} {f : Bool}
    {b : Asset} (hb : b ∈ updateIsOffline cat i f) (hid : b.id = i) :
    b.isOffline = f := by
  simp only [updateIsOffline, List.mem_map] at hb
  obtain ⟨x, _, hbx⟩ := hb
  by_cases hxi : x.id = i
  · simp [hxi] at hbx
    rw [← hbx]
  · simp [hxi] at hbx
    rw [← hbx] at hid
    exact absurd hid hxi

/-- A list whose matching-element count is one and whose first match is
`a` filters down to exactly `[a]`. -/
lemma filter_eq_singleton_of_countP_one {α : Type} {l : List α}
    {P : α → Bool} {a : α} (hfind : l.find? P = some a)
    (hcount : l.countP P = 1) : l.filter P = [a] := by
  have hlen : (l.filter P).length = 1 := by
    rw [← List.countP_eq_length_filter]; exact hcount
  obtain ⟨c, hc⟩ := List.length_eq_one.mp hlen
  have ha : a ∈ l.filter P :=
    List.mem_filter.mpr ⟨List.mem_of_find?_eq_some hfind, List.find?_some hfind⟩
  rw [hc] at ha ⊢
  simp only [List.mem_singleton] at ha
  rw [ha]

/-- The sentence of the refresh-error message for non-IMPORT libraries. -/
def onlyImportMsg : String := "Only imported libraries can be refreshed"

/-- C9: for every library whose type is not IMPORT, `refresh` raises an
internal-server error and queues no job; the outcome is the same for
every crawl and catalog result, so the rejection happens before any
crawling or job emission. -/
theorem C9_nonimport_refresh_rejected (normalize : String → String)
    (ownerId libraryId : String) (library : Library) (dto : RefreshLibraryDto)
    (crawlResult : Except Unit (List String))
    (catalogResult : Except Unit (List Asset))
    (hlib : library.type ≠ LibraryType.IMPORT) :
    refresh normalize ownerId libraryId library dto crawlResult catalogResult =
      { jobs := [], result := .error (.internalServerError onlyImportMsg) } := by
  simp [refresh, hlib, onlyImportMsg]

/-- C9 witness: refreshing an UPLOAD library is rejected with no jobs. -/
theorem C9_witness :
    refresh (fun s => s) "o" "L" ⟨"L", .UPLOAD, ["/m"]⟩ ⟨none, none⟩
        (.ok ["/m/a.jpg"]) (.ok []) =
      { jobs := [], result := .error (.internalServerError onlyImportMsg) } :=
  C9_nonimport_refresh_rejected (fun s => s) "o" "L" ⟨"L", .UPLOAD, ["/m"]⟩
    ⟨none, none⟩ (.ok ["/m/a.jpg"]) (.ok []) (by decide)

/-- C5: when stat fails, a job with no existing asset fails permanently
with a bad-request error and leaves the catalog untouched, while a job
with an existing asset marks exactly that asset offline, performs
no import and returns handled. -/
theorem C5_stat_failure_paths (env : FsEnv) (cat : Catalog)
    (job : ILibraryJob) (hstat : env.stat = none) :
    (getByLibraryIdAndOriginalPath cat job.libraryId job.assetPath = none →
      handleRefreshAsset env cat job =
        ⟨cat, [], .error (.badRequest "Cannot access file")⟩) ∧
    (∀ a, getByLibraryIdAndOriginalPath cat job.libraryId job.assetPath = some a →
      handleRefreshAsset env cat job =
        ⟨updateIsOffline cat a.id true, [Effect.updateOffline a.id true], .ok true⟩ ∧
      ∀ b ∈ (handleRefreshAsset env cat job).catalog, b.id = a.id →
        b.isOffline = true) := by
  constructor
  · intro hnone
    simp [handleRefreshAsset, hstat, hnone]
  · intro a hfind
    constructor
    · simp [handleRefreshAsset, hstat, hfind]
    · intro b hb hid
      simp only [handleRefreshAsset, hstat, hfind] at hb
      exact isOffline_of_mem_updateIsOffline hb hid

/-- C5 witness: a concrete unreadable file over an existing catalog entry
is marked offline and handled. -/
theorem C5_witness :
    handleRefreshAsset ⟨none, false, none, false, "", 7⟩
        [⟨1, "o", "L", "/m/a.jpg", "c", "d", "IMAGE", ⟨0, 1⟩, ⟨0, 2⟩, "a",
          none, true, false⟩]
        ⟨"/m/a.jpg", "o", "L", false, false⟩ =
      ⟨updateIsOffline
          [⟨1, "o", "L", "/m/a.jpg", "c", "d", "IMAGE", ⟨0, 1⟩, ⟨0, 2⟩, "a",
            none, true, false⟩] 1 true,
        [Effect.updateOffline 1 true], .ok true⟩ :=
  ((C5_stat_failure_paths ⟨none, false, none, false, "", 7⟩
      [⟨1, "o", "L", "/m/a.jpg", "c", "d", "IMAGE", ⟨0, 1⟩, ⟨0, 2⟩, "a",
        none, true, false⟩]
      ⟨"/m/a.jpg", "o", "L", false, false⟩ rfl).2
    ⟨1, "o", "L", "/m/a.jpg", "c", "d", "IMAGE", ⟨0, 1⟩, ⟨0, 2⟩, "a",
      none, true, false⟩ rfl).1

/-- C4 counterexample: on an IMPORT library whose crawl succeeds with one
path but whose catalog fetch fails, the pass aborts with an error having
already queued a refresh job, so a failed pass can emit jobs. -/
theorem C4_counterexample :
    (refresh (fun s => s) "o" "L" ⟨"L", .IMPORT, ["/m"]⟩ ⟨none, none⟩
        (.ok ["/m/a.jpg"]) (.error ())).result = .error .catalogFetchFailed ∧
    (refresh (fun s => s) "o" "L" ⟨"L", .IMPORT, ["/m"]⟩ ⟨none, none⟩
        (.ok ["/m/a.jpg"]) (.error ())).jobs ≠ [] := by
  exact ⟨rfl, by decide⟩

/-- C4 amended: a crawl failure aborts the pass with no job emitted at
all; a catalog-fetch failure aborts the pass before any offline job is
emitted, but one refresh job per crawled path has already been queued. -/
theorem C4_failure_abort_emission (normalize : String → String)
    (ownerId libraryId : String) (library : Library) (dto : RefreshLibraryDto)
    (crawlResult : Except Unit (List String))
    (catalogResult : Except Unit (List Asset))
    (hlib : library.type = LibraryType.IMPORT) :
    (∀ e, crawlResult = .error e →
      refresh normalize ownerId libraryId library dto crawlResult catalogResult =
        { jobs := [], result := .error .crawlFailed }) ∧
    (∀ raw e, crawlResult = .ok raw → catalogResult = .error e →
      (refresh normalize ownerId libraryId library dto crawlResult
          catalogResult).result = .error .catalogFetchFailed ∧
      (refresh normalize ownerId libraryId library dto crawlResult
          catalogResult).jobs.countP isOfflineJob = 0 ∧
      (refresh normalize ownerId libraryId library dto crawlResult
          catalogResult).jobs.length = raw.length) := by
  constructor
  · intro e he
    simp [refresh, hlib, he]
  · intro raw e hraw hcat
    subst hraw hcat
    refine ⟨by simp [refresh, hlib], ?_, by simp [refresh, hlib]⟩
    simp only [refresh, hlib]
    simp [List.countP_eq_zero, isOfflineJob]

/-- C4 witness: a concrete crawl failure emits nothing, and a concrete
catalog-fetch failure emits no offline job. -/
theorem C4_witness :
    refresh (fun s => s) "o" "L" ⟨"L", .IMPORT, ["/m"]⟩ ⟨none, none⟩
        (.error ()) (.ok []) = { jobs := [], result := .error .crawlFailed } ∧
    (refresh (fun s => s) "o" "L" ⟨"L", .IMPORT, ["/m"]⟩ ⟨none, none⟩
        (.ok ["/m/a.jpg"]) (.error ())).jobs.countP isOfflineJob = 0 :=
  ⟨(C4_failure_abort_emission (fun s => s) "o" "L" ⟨"L", .IMPORT, ["/m"]⟩
      ⟨none, none⟩ (.error ()) (.ok []) rfl).1 () rfl,
   ((C4_failure_abort_emission (fun s => s) "o" "L" ⟨"L", .IMPORT, ["/m"]⟩
      ⟨none, none⟩ (.ok ["/m/a.jpg"]) (.error ()) rfl).2 ["/m/a.jpg"] ()
      rfl rfl).2.1⟩

/-- C6: the offline worker on a path with an existing, unique catalog
record removes it when `emptyTrash` is set (zero records for the path
afterward) and otherwise keeps exactly one record for the path, now with
`isOffline = true`; both branches return handled. A path with no record
fails permanently and mutates nothing. -/
theorem C6_offline_worker_disposition (cat : Catalog) (job : ILibraryJob) :
    (getByLibraryIdAndOriginalPath cat job.libraryId job.assetPath = none →
      handleOfflineAsset cat job =
        ⟨cat, [],
          .error (.badRequest ("Asset does not exist in database: " ++ job.assetPath))⟩) ∧
    (∀ a, getByLibraryIdAndOriginalPath cat job.libraryId job.assetPath = some a →
      pathCount cat job.libraryId job.assetPath = 1 →
      (handleOfflineAsset cat job).result = .ok true ∧
      (job.emptyTrash = true →
        pathCount (handleOfflineAsset cat job).catalog job.libraryId
          job.assetPath = 0) ∧
      (job.emptyTrash = false →
        (handleOfflineAsset cat job).catalog.filter
            (fun b => b.libraryId == job.libraryId && b.originalPath == job.assetPath) =
          [{ a with isOffline := true }])) := by
  constructor
  · intro hnone
    simp [handleOfflineAsset, hnone]
  · intro a hfind hone
    have hfilter := filter_eq_singleton_of_countP_one hfind hone
    refine ⟨?_, ?_, ?_⟩
    · simp only [handleOfflineAsset, hfind]
      by_cases he : job.emptyTrash <;> simp [he]
    · intro he
      simp only [handleOfflineAsset, hfind, he, if_pos]
      simp only [pathCount, removeAsset, List.countP_filter]
      rw [List.countP_eq_zero]
      intro b hb
      simp only [Bool.and_eq_true, bne_iff_ne, ne_eq, not_and]
      intro hmatch hne
      have hbmem : b ∈ cat.filter
          (fun x => x.libraryId == job.libraryId && x.originalPath == job.assetPath) :=
        List.mem_filter.mpr ⟨hb, by simp [hmatch.1, hmatch.2]⟩
      rw [hfilter] at hbmem
      simp only [List.mem_singleton] at hbmem
      exact hne (by rw [hbmem])
    · intro he
      simp only [handleOfflineAsset, hfind, he, Bool.false_eq_true, if_false]
      simp only [updateIsOffline, List.filter_map]
      have hcomp :
          (fun b : Asset => b.libraryId == job.libraryId && b.originalPath == job.assetPath) ∘
            (fun x : Asset => if x.id == a.id then { x with isOffline := true } else x) =
          fun x : Asset => x.libraryId == job.libraryId && x.originalPath == job.assetPath := by
        funext x
        by_cases hx : x.id = a.id <;> simp [hx]
      rw [hcomp, hfilter]
      simp [List.map_singleton]

/-- C6 witness: a concrete offline job with `emptyTrash` leaves zero
records for the path and returns handled; without `emptyTrash` the single
record survives with the offline flag set. -/
theorem C6_witness :
    (handleOfflineAsset
        [⟨1, "o", "L", "/m/b.jpg", "c", "d", "IMAGE", ⟨0, 1⟩, ⟨0, 2⟩, "b",
          none, true, false⟩]
        ⟨"/m/b.jpg", "o", "L", false, true⟩).result = .ok true ∧
    pathCount
      (handleOfflineAsset
        [⟨1, "o", "L", "/m/b.jpg", "c", "d", "IMAGE", ⟨0, 1⟩, ⟨0, 2⟩, "b",
          none, true, false⟩]
        ⟨"/m/b.jpg", "o", "L", false, true⟩).catalog "L" "/m/b.jpg" = 0 := by
  have h := (C6_offline_worker_disposition
      [⟨1, "o", "L", "/m/b.jpg", "c", "d", "IMAGE", ⟨0, 1⟩, ⟨0, 2⟩, "b",
        none, true, false⟩]
      ⟨"/m/b.jpg", "o", "L", false, true⟩).2
      ⟨1, "o", "L", "/m/b.jpg", "c", "d", "IMAGE", ⟨0, 1⟩, ⟨0, 2⟩, "b",
        none, true, false⟩ rfl (by decide)
  exact ⟨h.1, h.2.1 rfl⟩

/-- C7: whenever stat succeeds over an existing asset that is marked
offline, the very first effect of the run is clearing the offline flag,
before any import effect (hash, create, enqueue) and regardless of
the import decision or its outcome. -/
theorem C7_offline_flag_cleared_first (env : FsEnv) (cat : Catalog)
    (job : ILibraryJob) (stats : Stats) (a : Asset)
    (hstat : env.stat = some stats)
    (hfind : getByLibraryIdAndOriginalPath cat job.libraryId job.assetPath = some a)
    (hoff : a.isOffline = true) :
    (handleRefreshAsset env cat job).trace.head? =
      some (Effect.updateOffline a.id false) := by
  simp only [handleRefreshAsset, hstat, hfind, clearOfflineStep, hoff, if_pos]
  by_cases hdo : decideImport (some a) job.forceRefresh stats.mtime = false
  · simp [hdo]
  · simp only [hdo, if_false]
    simp only [importAsset]
    cases hm : env.mimeLookup with
    | none => simp
    | some m =>
      by_cases hia : env.isAsset = false
      · simp [hia]
      · simp only [hia, if_false]
        by_cases hv : assetTypeOf m == "VIDEO" <;> simp [hv]

/-- C7 witness: a concrete returned file over an offline catalog entry has
the clear-offline update as its first effect. -/
theorem C7_witness :
    (handleRefreshAsset
        ⟨some ⟨⟨5, 100⟩, ⟨6, 90⟩, 10⟩, false, some "image/jpeg", true, "h", 2⟩
        [⟨1, "o", "L", "/m/a.jpg", "c", "d", "IMAGE", ⟨0, 1⟩, ⟨0, 100⟩, "a",
          none, true, true⟩]
        ⟨"/m/a.jpg", "o", "L", false, false⟩).trace.head? =
      some (Effect.updateOffline 1 false) :=
  C7_offline_flag_cleared_first
    ⟨some ⟨⟨5, 100⟩, ⟨6, 90⟩, 10⟩, false, some "image/jpeg", true, "h", 2⟩
    [⟨1, "o", "L", "/m/a.jpg", "c", "d", "IMAGE", ⟨0, 1⟩, ⟨0, 100⟩, "a",
      none, true, true⟩]
    ⟨"/m/a.jpg", "o", "L", false, false⟩
    ⟨⟨5, 100⟩, ⟨6, 90⟩, 10⟩
    ⟨1, "o", "L", "/m/a.jpg", "c", "d", "IMAGE", ⟨0, 1⟩, ⟨0, 100⟩, "a",
      none, true, true⟩ rfl rfl rfl

/-- C10: on the skip path (existing asset, no force refresh, the stored
modification date strictly-equal to the one from stat) the run returns
handled and its only effect, and only catalog change, is clearing the
offline flag when it was set; in particular no hash, no create and no
enqueue effect occurs. -/
theorem C10_skip_path_frame (env : FsEnv) (cat : Catalog)
    (job : ILibraryJob) (stats : Stats) (a : Asset)
    (hstat : env.stat = some stats)
    (hfind : getByLibraryIdAndOriginalPath cat job.libraryId job.assetPath = some a)
    (hforce : job.forceRefresh = false)
    (hmt : jsStrictNeq stats.mtime a.fileModifiedAt = false) :
    handleRefreshAsset env cat job =
      ⟨if a.isOffline then updateIsOffline cat a.id false else cat,
        if a.isOffline then [Effect.updateOffline a.id false] else [],
        .ok true⟩ := by
  simp [handleRefreshAsset, hstat, hfind, decideImport, hforce, hmt,
    clearOfflineStep]
  by_cases ho : a.isOffline <;> simp [ho]

/-- C10 witness: a concrete skip run over an offline asset performs
exactly the flag clear and nothing else. -/
theorem C10_witness :
    handleRefreshAsset
        ⟨some ⟨⟨5, 100⟩, ⟨6, 90⟩, 10⟩, false, some "image/jpeg", true, "h", 2⟩
        [⟨1, "o", "L", "/m/a.jpg", "c", "d", "IMAGE", ⟨0, 1⟩, ⟨5, 100⟩, "a",
          none, true, true⟩]
        ⟨"/m/a.jpg", "o", "L", false, false⟩ =
      ⟨updateIsOffline
          [⟨1, "o", "L", "/m/a.jpg", "c", "d", "IMAGE", ⟨0, 1⟩, ⟨5, 100⟩, "a",
            none, true, true⟩] 1 false,
        [Effect.updateOffline 1 false], .ok true⟩ := by
  have h := C10_skip_path_frame
    ⟨some ⟨⟨5, 100⟩, ⟨6, 90⟩, 10⟩, false, some "image/jpeg", true, "h", 2⟩
    [⟨1, "o", "L", "/m/a.jpg", "c", "d", "IMAGE", ⟨0, 1⟩, ⟨5, 100⟩, "a",
      none, true, true⟩]
    ⟨"/m/a.jpg", "o", "L", false, false⟩
    ⟨⟨5, 100⟩, ⟨6, 90⟩, 10⟩
    ⟨1, "o", "L", "/m/a.jpg", "c", "d", "IMAGE", ⟨0, 1⟩, ⟨5, 100⟩, "a",
      none, true, true⟩ rfl rfl rfl rfl
  simpa using h

@[simp] lemma isRefreshFor_refreshFile (q : String) (d : ILibraryJob) :
    isRefreshFor q (.refreshFile d) = (d.assetPath == q) := rfl

@[simp] lemma isRefreshFor_offlineFile (q : String) (d : ILibraryJob) :
    isRefreshFor q (.offlineFile d) = false := rfl

@[simp] lemma isOfflineFor_refreshFile (q : String) (d : ILibraryJob) :
    isOfflineFor q (.refreshFile d) = false := rfl

@[simp] lemma isOfflineFor_offlineFile (q : String) (d : ILibraryJob) :
    isOfflineFor q (.offlineFile d) = (d.assetPath == q) := rfl

/-- C2 evaluation: a second ingest run over an unchanged file re-imports.
The stored modification date and the date from stat carry the same time
value (both 100), `forceRefresh` is false, yet the run hashes and creates
again, because the source compares the two `Date` objects with strict
inequality, which is object identity and always true for the fresh stat
object; its own comment claims the branch fires only when the time
changed. -/
theorem C2_unchanged_file_reimports :
    (JSDate.mk 1 100).val = (JSDate.mk 0 100).val ∧
    (handleRefreshAsset
        ⟨some ⟨⟨1, 100⟩, ⟨2, 90⟩, 10⟩, false, some "image/jpeg", true, "h", 2⟩
        [⟨1, "o", "L", "/m/a.jpg", "h", "a.jpg-10", "IMAGE", ⟨0, 90⟩, ⟨0, 100⟩,
          "a", none, true, false⟩]
        ⟨"/m/a.jpg", "o", "L", false, false⟩).trace.countP isCreate = 1 ∧
    (handleRefreshAsset
        ⟨some ⟨⟨1, 100⟩, ⟨2, 90⟩, 10⟩, false, some "image/jpeg", true, "h", 2⟩
        [⟨1, "o", "L", "/m/a.jpg", "h", "a.jpg-10", "IMAGE", ⟨0, 90⟩, ⟨0, 100⟩,
          "a", none, true, false⟩]
        ⟨"/m/a.jpg", "o", "L", false, false⟩).result = .ok true := by
  refine ⟨rfl, by decide, rfl⟩

/-- C3 evaluation: a forced re-import over an existing record calls
create again, so afterward the library holds two records for the same
path, violating the at-most-one-record-per-path invariant the claim
states. -/
theorem C3_reimport_duplicates_record :
    pathCount
      [⟨1, "o", "L", "/m/a.jpg", "h", "a.jpg-10", "IMAGE", ⟨0, 90⟩, ⟨0, 100⟩,
        "a", none, true, false⟩] "L" "/m/a.jpg" = 1 ∧
    pathCount
      (handleRefreshAsset
        ⟨some ⟨⟨1, 100⟩, ⟨2, 90⟩, 10⟩, false, some "image/jpeg", true, "h2", 2⟩
        [⟨1, "o", "L", "/m/a.jpg", "h", "a.jpg-10", "IMAGE", ⟨0, 90⟩, ⟨0, 100⟩,
          "a", none, true, false⟩]
        ⟨"/m/a.jpg", "o", "L", true, false⟩).catalog "L" "/m/a.jpg" = 2 := by
  refine ⟨by decide, by decide⟩

/-- C8: whenever the ingest worker reaches the import procedure (mime
resolved, allow-list passed, import decided), it queues exactly one
metadata-extraction job for the created asset, and exactly one
video-conversion job when the derived asset type is VIDEO, none
otherwise. -/
theorem C8_followon_jobs (env : FsEnv) (cat : Catalog) (job : ILibraryJob)
    (stats : Stats) (m : String)
    (hstat : env.stat = some stats)
    (hmime : env.mimeLookup = some m)
    (hallow : env.isAsset = true)
    (hdo : decideImport
        (getByLibraryIdAndOriginalPath cat job.libraryId job.assetPath)
        job.forceRefresh stats.mtime = true) :
    (handleRefreshAsset env cat job).trace.countP
        (isQueueMeta env.nextAssetId) = 1 ∧
    (handleRefreshAsset env cat job).trace.countP
        (isQueueVideo env.nextAssetId) =
      (if assetTypeOf m = "VIDEO" then 1 else 0) := by
  have hrun : handleRefreshAsset env cat job =
      importAsset env stats
        (clearOfflineStep cat
          (getByLibraryIdAndOriginalPath cat job.libraryId job.assetPath)).1
        (clearOfflineStep cat
          (getByLibraryIdAndOriginalPath cat job.libraryId job.assetPath)).2
        job := by
    simp [handleRefreshAsset, hstat, hdo]
  rw [hrun]
  have htr : ∀ e ∈ (clearOfflineStep cat
      (getByLibraryIdAndOriginalPath cat job.libraryId job.assetPath)).2,
      isQueueMeta env.nextAssetId e = false ∧
      isQueueVideo env.nextAssetId e = false := by
    intro e he
    rcases hex : getByLibraryIdAndOriginalPath cat job.libraryId job.assetPath
      with _ | a
    · rw [hex] at he
      simp [clearOfflineStep] at he
    · rw [hex] at he
      by_cases ho : a.isOffline
      · simp only [clearOfflineStep, ho, if_pos, List.mem_singleton] at he
        subst he
        exact ⟨rfl, rfl⟩
      · simp [clearOfflineStep, ho] at he
  have hz1 : (clearOfflineStep cat
      (getByLibraryIdAndOriginalPath cat job.libraryId job.assetPath)).2.countP
      (isQueueMeta env.nextAssetId) = 0 :=
    List.countP_eq_zero.mpr (fun e he => by simp [(htr e he).1])
  have hz2 : (clearOfflineStep cat
      (getByLibraryIdAndOriginalPath cat job.libraryId job.assetPath)).2.countP
      (isQueueVideo env.nextAssetId) = 0 :=
    List.countP_eq_zero.mpr (fun e he => by simp [(htr e he).2])
  by_cases hv : assetTypeOf m = "VIDEO" <;>
    simp [importAsset, hmime, hallow, hv, List.countP_append, List.countP_cons,
      hz1, hz2, isQueueMeta, isQueueVideo]

/-- C8 witness: a concrete mp4 ingest queues both follow-on jobs; a
concrete jpg ingest queues only metadata extraction. -/
theorem C8_witness :
    (handleRefreshAsset
        ⟨some ⟨⟨1, 100⟩, ⟨2, 90⟩, 10⟩, false, some "video/mp4", true, "h", 2⟩
        [] ⟨"/m/a.mp4", "o", "L", false, false⟩).trace.countP
        (isQueueMeta 2) = 1 ∧
    (handleRefreshAsset
        ⟨some ⟨⟨1, 100⟩, ⟨2, 90⟩, 10⟩, false, some "video/mp4", true, "h", 2⟩
        [] ⟨"/m/a.mp4", "o", "L", false, false⟩).trace.countP
        (isQueueVideo 2) = 1 ∧
    (handleRefreshAsset
        ⟨some ⟨⟨1, 100⟩, ⟨2, 90⟩, 10⟩, false, some "image/jpeg", true, "h", 3⟩
        [] ⟨"/m/a.jpg", "o", "L", false, false⟩).trace.countP
        (isQueueMeta 3) = 1 ∧
    (handleRefreshAsset
        ⟨some ⟨⟨1, 100⟩, ⟨2, 90⟩, 10⟩, false, some "image/jpeg", true, "h", 3⟩
        [] ⟨"/m/a.jpg", "o", "L", false, false⟩).trace.countP
        (isQueueVideo 3) = 0 := by
  have h1 := C8_followon_jobs
    ⟨some ⟨⟨1, 100⟩, ⟨2, 90⟩, 10⟩, false, some "video/mp4", true, "h", 2⟩
    [] ⟨"/m/a.mp4", "o", "L", false, false⟩ ⟨⟨1, 100⟩, ⟨2, 90⟩, 10⟩
    "video/mp4" rfl rfl rfl (by decide)
  have h2 := C8_followon_jobs
    ⟨some ⟨⟨1, 100⟩, ⟨2, 90⟩, 10⟩, false, some "image/jpeg", true, "h", 3⟩
    [] ⟨"/m/a.jpg", "o", "L", false, false⟩ ⟨⟨1, 100⟩, ⟨2, 90⟩, 10⟩
    "image/jpeg" rfl rfl rfl (by decide)
  exact ⟨h1.1, h1.2.trans (by decide), h2.1, h2.2.trans (by decide)⟩

/-- C1: in a refresh pass over an IMPORT library (crawl result taken as a
set of paths: no duplicates after normalization, which is idempotent; the
catalog likewise holds at most one record per normalized path), every
crawled path gets exactly one refresh job, every normalized catalog path
absent from the crawl gets exactly one offline job, and a path present in
both gets no offline job. -/
theorem C1_reconciliation_partition (normalize : String → String)
    (ownerId libraryId : String) (library : Library) (dto : RefreshLibraryDto)
    (rawPaths : List String) (assets : List Asset)
    (hlib : library.type = LibraryType.IMPORT)
    (hidem : ∀ s, normalize (normalize s) = normalize s)
    (hcrawl : (rawPaths.map normalize).Nodup)
    (hcat : (assets.map (fun a => normalize a.originalPath)).Nodup) :
    (∀ p ∈ rawPaths,
      (refresh normalize ownerId libraryId library dto (.ok rawPaths)
          (.ok assets)).jobs.countP (isRefreshFor (normalize p)) = 1) ∧
    (∀ a ∈ assets, normalize a.originalPath ∉ rawPaths.map normalize →
      (refresh normalize ownerId libraryId library dto (.ok rawPaths)
          (.ok assets)).jobs.countP
        (isOfflineFor (normalize a.originalPath)) = 1) ∧
    (∀ a ∈ assets, normalize a.originalPath ∈ rawPaths.map normalize →
      (refresh normalize ownerId libraryId library dto (.ok rawPaths)
          (.ok assets)).jobs.countP
        (isOfflineFor (normalize a.originalPath)) = 0) := by
  have hjobs : (refresh normalize ownerId libraryId library dto (.ok rawPaths)
      (.ok assets)).jobs =
      (rawPaths.map normalize).map (fun p => QueuedJob.refreshFile
        { assetPath := normalize p
          ownerId := ownerId
          libraryId := libraryId
          forceRefresh := dto.forceRefresh.getD false
          emptyTrash := dto.emptyTrash.getD false }) ++
      (((assets.map (fun a => a.originalPath)).map normalize).filter
        (fun p => !(rawPaths.map normalize).contains p)).map
        (fun p => QueuedJob.offlineFile
          { assetPath := p
            ownerId := ownerId
            libraryId := libraryId
            forceRefresh := false
            emptyTrash := dto.emptyTrash.getD false }) := by
    simp [refresh, hlib]
  have hD : ((assets.map (fun a => a.originalPath)).map normalize).Nodup := by
    rw [List.map_map]
    exact hcat
  refine ⟨?_, ?_, ?_⟩
  · intro p hp
    rw [hjobs, List.countP_append]
    have hoff : List.countP (isRefreshFor (normalize p))
        ((((assets.map (fun a => a.originalPath)).map normalize).filter
          (fun x => !(rawPaths.map normalize).contains x)).map
          (fun x => QueuedJob.offlineFile
            { assetPath := x
              ownerId := ownerId
              libraryId := libraryId
              forceRefresh := false
              emptyTrash := dto.emptyTrash.getD false })) = 0 := by
      rw [List.countP_map]
      exact List.countP_eq_zero.mpr (fun x _ => by simp [Function.comp])
    rw [hoff, List.countP_map, List.countP_map]
    have hfun : ((isRefreshFor (normalize p)) ∘
        (fun q => QueuedJob.refreshFile
          { assetPath := normalize q
            ownerId := ownerId
            libraryId := libraryId
            forceRefresh := dto.forceRefresh.getD false
            emptyTrash := dto.emptyTrash.getD false })) ∘ normalize =
        fun r => normalize r == normalize p := by
      funext r
      simp [Function.comp, hidem r]
    rw [hfun]
    have hconv : (fun r => normalize r == normalize p) =
        ((· == normalize p) ∘ normalize) := rfl
    rw [hconv, ← List.countP_map, ← List.count_eq_countP]
    exact Nat.add_zero _ ▸
      List.count_eq_one_of_mem hcrawl (List.mem_map_of_mem normalize hp)
  · intro a ha hnot
    rw [hjobs, List.countP_append]
    have href : ((rawPaths.map normalize).map (fun p => QueuedJob.refreshFile
        { assetPath := normalize p
          ownerId := ownerId
          libraryId := libraryId
          forceRefresh := dto.forceRefresh.getD false
          emptyTrash := dto.emptyTrash.getD false })).countP
        (isOfflineFor (normalize a.originalPath)) = 0 := by
      rw [List.countP_map]
      exact List.countP_eq_zero.mpr (fun x _ => by simp [Function.comp])
    rw [href, List.countP_map]
    have hfun : (isOfflineFor (normalize a.originalPath)) ∘
        (fun p => QueuedJob.offlineFile
          { assetPath := p
            ownerId := ownerId
            libraryId := libraryId
            forceRefresh := false
            emptyTrash := dto.emptyTrash.getD false }) =
        (· == normalize a.originalPath) := by
      funext x
      simp [Function.comp]
    rw [hfun, ← List.count_eq_countP]
    have hmemD : normalize a.originalPath ∈
        (assets.map (fun x => x.originalPath)).map normalize := by
      rw [List.map_map]
      exact List.mem_map_of_mem _ ha
    have hfil : normalize a.originalPath ∈
        ((assets.map (fun x => x.originalPath)).map normalize).filter
          (fun p => !(rawPaths.map normalize).contains p) :=
      List.mem_filter.mpr ⟨hmemD, by simp [List.contains, hnot]⟩
    rw [Nat.zero_add]
    exact List.count_eq_one_of_mem (List.Nodup.filter _ hD) hfil
  · intro a ha hmem
    rw [hjobs, List.countP_append]
    have href : ((rawPaths.map normalize).map (fun p => QueuedJob.refreshFile
        { assetPath := normalize p
          ownerId := ownerId
          libraryId := libraryId
          forceRefresh := dto.forceRefresh.getD false
          emptyTrash := dto.emptyTrash.getD false })).countP
        (isOfflineFor (normalize a.originalPath)) = 0 := by
      rw [List.countP_map]
      exact List.countP_eq_zero.mpr (fun x _ => by simp [Function.comp])
    rw [href, List.countP_map]
    have hfun : (isOfflineFor (normalize a.originalPath)) ∘
        (fun p => QueuedJob.offlineFile
          { assetPath := p
            ownerId := ownerId
            libraryId := libraryId
            forceRefresh := false
            emptyTrash := dto.emptyTrash.getD false }) =
        (· == normalize a.originalPath) := by
      funext x
      simp [Function.comp]
    rw [hfun, ← List.count_eq_countP, Nat.zero_add]
    refine List.count_eq_zero_of_not_mem (fun hfil => ?_)
    have hkeep := (List.mem_filter.mp hfil).2
    simp only [List.contains, Bool.not_eq_true', List.elem_eq_mem,
      decide_eq_false_iff_not] at hkeep
    exact hkeep hmem

/-- C1 witness: with one crawled path and one catalog record at another
path, the crawled path gets exactly one refresh job and the catalog path
exactly one offline job. -/
theorem C1_witness :
    (refresh (fun s => s) "o" "L" ⟨"L", .IMPORT, ["/m"]⟩ ⟨none, none⟩
        (.ok ["/m/a.jpg"])
        (.ok [⟨1, "o", "L", "/m/b.jpg", "c", "d", "IMAGE", ⟨0, 1⟩, ⟨0, 2⟩,
          "b", none, true, false⟩])).jobs.countP
      (isRefreshFor "/m/a.jpg") = 1 ∧
    (refresh (fun s => s) "o" "L" ⟨"L", .IMPORT, ["/m"]⟩ ⟨none, none⟩
        (.ok ["/m/a.jpg"])
        (.ok [⟨1, "o", "L", "/m/b.jpg", "c", "d", "IMAGE", ⟨0, 1⟩, ⟨0, 2⟩,
          "b", none, true, false⟩])).jobs.countP
      (isOfflineFor "/m/b.jpg") = 1 := by
  have h := C1_reconciliation_partition (fun s => s) "o" "L"
    ⟨"L", .IMPORT, ["/m"]⟩ ⟨none, none⟩ ["/m/a.jpg"]
    [⟨1, "o", "L", "/m/b.jpg", "c", "d", "IMAGE", ⟨0, 1⟩, ⟨0, 2⟩,
      "b", none, true, false⟩]
    rfl (fun _ => rfl) (by decide) (by decide)
  exact ⟨h.1 "/m/a.jpg" (by decide),
    h.2.1 ⟨1, "o", "L", "/m/b.jpg", "c", "d", "IMAGE", ⟨0, 1⟩, ⟨0, 2⟩,
      "b", none, true, false⟩ (by decide) (by decide)⟩

end Immich
